import Mathlib

/-!
# AIMotion: the third-person character of `Source/AIMotion/AIMotionCharacter.cpp`

A shallow embedding of the character class `AAIMotionCharacter`:
`MoveForward`, `MoveRight`, `GetBoneAllTransfrom`, `SetBoneAllTransfrom`,
`GetNearHigh` and `DrowTip`.

Conventions of the embedding.

* Coordinates, angles and axis values are elements of a linearly ordered field
  `α` (exact arithmetic, total order); every definition is executable at
  `α = ℚ`.  What the rounding of `float` decides (whether a computed direction
  has length exactly one, whether two computed directions are equal) is outside
  this embedding.
* The host engine is explicit.  Its math primitives (`FMath`), its physics
  query (`UWorld`) and its posable mesh interface (`UPoseableMeshComponent`)
  are parameters.  `FRotationMatrix`, `GetScaledAxis`, `GetSafeNormal` and
  `GetUnitAxis` follow the engine's math library on top of `FMath`.
* The character is a record that is passed along: calls of `AddMovementInput`,
  `DrawDebugSphere` and `UE_LOG` are appended to lists kept in the record, and
  a null pointer is `none`.
-/

namespace AIMotion

/-! ## Engine vectors and rotations -/

/-- Engine vector `FVector`: three coordinates. -/
structure FVector (α : Type) where
  X : α
  Y : α
  Z : α
deriving DecidableEq

/-- Engine rotation `FRotator(Pitch, Yaw, Roll)`, angles in degrees. -/
structure FRotator (α : Type) where
  Pitch : α
  Yaw : α
  Roll : α
deriving DecidableEq

/-- Axis selector `EAxis`. -/
inductive EAxis where
  | X
  | Y
  | Z
deriving DecidableEq

/-- Engine math primitives `FMath`: `SinCos d` is the pair (sine, cosine) of the
angle of `d` degrees, `InvSqrt` the reciprocal square root. -/
structure FMath (α : Type) where
  SinCos : α → α × α
  InvSqrt : α → α

/-- Vector sum, `FVector::operator+`. -/
def FVector.add {α : Type} [LinearOrderedField α] (a b : FVector α) : FVector α :=
  ⟨a.X + b.X, a.Y + b.Y, a.Z + b.Z⟩

/-- Scaling of a vector, `FVector::operator*(float)`. -/
def FVector.scale {α : Type} [LinearOrderedField α] (a : FVector α) (s : α) : FVector α :=
  ⟨a.X * s, a.Y * s, a.Z * s⟩

/-- Engine `FVector::GetSafeNormal` with its default tolerance `SMALL_NUMBER = 1e-8`:
a vector of squared length one is returned as it is, a vector shorter than the
tolerance gives the zero vector, any other is scaled by `InvSqrt`. -/
def FVector.GetSafeNormal {α : Type} [LinearOrderedField α] (M : FMath α) (a : FVector α) :
    FVector α :=
  let SquareSum := a.X * a.X + a.Y * a.Y + a.Z * a.Z
  if SquareSum = 1 then a
  else if SquareSum < 1 / 100000000 then ⟨0, 0, 0⟩
  else
    let Scale := M.InvSqrt SquareSum
    ⟨a.X * Scale, a.Y * Scale, a.Z * Scale⟩

/-- Rotation part of the engine's `FRotationMatrix`: its three rows. -/
structure FRotationMatrix (α : Type) where
  Row0 : FVector α
  Row1 : FVector α
  Row2 : FVector α

/-- Engine constructor `FRotationMatrix(Rot)`. -/
def FRotationMatrix.Make {α : Type} [LinearOrderedField α] (M : FMath α) (Rot : FRotator α) :
    FRotationMatrix α :=
  let SP := (M.SinCos Rot.Pitch).1
  let CP := (M.SinCos Rot.Pitch).2
  let SY := (M.SinCos Rot.Yaw).1
  let CY := (M.SinCos Rot.Yaw).2
  let SR := (M.SinCos Rot.Roll).1
  let CR := (M.SinCos Rot.Roll).2
  { Row0 := ⟨CP * CY, CP * SY, SP⟩
    Row1 := ⟨SR * SP * CY - CR * SY, SR * SP * SY + CR * CY, -SR * CP⟩
    Row2 := ⟨-(CR * SP * CY + SR * SY), CY * SR - CR * SP * SY, CR * CP⟩ }

/-- Engine `FMatrix::GetScaledAxis`. -/
def FRotationMatrix.GetScaledAxis {α : Type} (R : FRotationMatrix α) : EAxis → FVector α
  | EAxis.X => R.Row0
  | EAxis.Y => R.Row1
  | EAxis.Z => R.Row2

/-- Engine `FMatrix::GetUnitAxis`: the scaled axis, normalised. -/
def FRotationMatrix.GetUnitAxis {α : Type} [LinearOrderedField α] (M : FMath α)
    (R : FRotationMatrix α) (Axis : EAxis) : FVector α :=
  (R.GetScaledAxis Axis).GetSafeNormal M

/-! ## Physics world -/

/-- Engine hit record `FHitResult`; only `ImpactPoint` is read by the character. -/
structure FHitResult (α : Type) where
  ImpactPoint : FVector α
deriving DecidableEq

/-- Engine query `GWorld->SweepMultiByObjectType(OutHits, Start, End, Rot, Params, Shape)`
with the rotation `FQuat(0,0,0,1)` and the object type `ECC_WorldStatic` fixed:
from the hit array passed in, the start, the end and the box half extent, to
the success flag and the hit array after the call. -/
abbrev UWorld (α : Type) : Type :=
  List (FHitResult α) → FVector α → FVector α → FVector α → Bool × List (FHitResult α)

/-! ## Character state -/

/-- Player controller; `GetControlRotation` reads `ControlRotation`. -/
structure AController (α : Type) where
  ControlRotation : FRotator α
deriving DecidableEq

/-- State of an `AAIMotionCharacter` together with the engine calls it has made.
`Controller` and `PoseableMesh` are pointers (`none` is `nullptr`),
`ActorLocation` is what `GetActorLocation` returns, `MovementInput` lists the
`AddMovementInput(Direction, Value)` calls, `DebugSpheres` the centres passed to
`DrawDebugSphere`, `LogMemory` the values written by `UE_LOG`. -/
structure AAIMotionCharacter (α Mesh : Type) where
  Controller : Option (AController α)
  ActorLocation : FVector α
  PoseableMesh : Option Mesh
  MovementInput : List (FVector α × α)
  DebugSpheres : List (FVector α)
  LogMemory : List α

/-- Engine `APawn::AddMovementInput`, recorded as a call. -/
def AddMovementInput {α Mesh : Type} (self : AAIMotionCharacter α Mesh)
    (WorldDirection : FVector α) (ScaleValue : α) : AAIMotionCharacter α Mesh :=
  { self with MovementInput := self.MovementInput ++ [(WorldDirection, ScaleValue)] }

/-- Source `AAIMotionCharacter::DrowTip`: one `DrawDebugSphere` at `EndPoint`. -/
def DrowTip {α Mesh : Type} (self : AAIMotionCharacter α Mesh)
    (_StartPoint EndPoint : FVector α) : AAIMotionCharacter α Mesh :=
  { self with DebugSpheres := self.DebugSpheres ++ [EndPoint] }

/-! ## `GetNearHigh` -/

/-- Inner loop of `GetNearHigh` (lines 212-223), one step: the hit replaces
`HitPoint` when `HitPoint.Z > CurZ`. -/
def LowerHit {α : Type} [LinearOrderedField α] (HitPoint : FVector α) (Hit : FHitResult α) :
    FVector α :=
  let CurZ := Hit.ImpactPoint.Z
  if HitPoint.Z > CurZ then Hit.ImpactPoint else HitPoint

/-- Lines 209-224 of `GetNearHigh`: `HitPoint` starts as `StartLocation`; when the
sweep succeeded the hits are scanned in order. -/
def SelectHitPoint {α : Type} [LinearOrderedField α] (StartLocation : FVector α)
    (bHitSuccess : Bool) (OutHits : List (FHitResult α)) : FVector α :=
  if bHitSuccess then OutHits.foldl LowerHit StartLocation else StartLocation

/-- Start of sample column `i` (line 205): `CurLocation + Direction * i * 100`. -/
def StartLocation {α : Type} [LinearOrderedField α] (CurLocation Direction : FVector α)
    (i : Nat) : FVector α :=
  CurLocation.add ((Direction.scale (i : α)).scale 100)

/-- End of the sweep of a column (lines 206-207): 200 units below its start. -/
def EndLocation {α : Type} [LinearOrderedField α] (Start : FVector α) : FVector α :=
  { Start with Z := Start.Z - 200 }

/-- Box shape of the sweep (line 199): half extent `(20, 20, 20)`. -/
def ProbeBox {α : Type} [LinearOrderedField α] : FVector α := ⟨20, 20, 20⟩

/-- Hit array handed to the sweep of column `i` (the variable `OutHits` of line
200 is declared outside the loop): empty for the first column, afterwards what
the sweep of the column before left in it. -/
def HitsBefore {α : Type} [LinearOrderedField α] (GWorld : UWorld α)
    (CurLocation Direction : FVector α) : Nat → List (FHitResult α)
  | 0 => []
  | i + 1 =>
    (GWorld (HitsBefore GWorld CurLocation Direction i) (StartLocation CurLocation Direction i)
      (EndLocation (StartLocation CurLocation Direction i)) ProbeBox).2

/-- Outcome of the sweep query of column `i` (line 208): the success flag and the
hit array after the call. -/
def SweepOfColumn {α : Type} [LinearOrderedField α] (GWorld : UWorld α)
    (CurLocation Direction : FVector α) (i : Nat) : Bool × List (FHitResult α) :=
  GWorld (HitsBefore GWorld CurLocation Direction i) (StartLocation CurLocation Direction i)
    (EndLocation (StartLocation CurLocation Direction i)) ProbeBox

/-- Point that column `i` contributes: `SelectHitPoint` at the column's start on
the outcome of the column's sweep. -/
def ColumnPoint {α : Type} [LinearOrderedField α] (GWorld : UWorld α)
    (CurLocation Direction : FVector α) (i : Nat) : FVector α :=
  SelectHitPoint (StartLocation CurLocation Direction i)
    (SweepOfColumn GWorld CurLocation Direction i).1
    (SweepOfColumn GWorld CurLocation Direction i).2

/-- Values that column `i` writes with `UE_LOG` (line 221): the `CurZ` of every hit
when the sweep succeeded, nothing otherwise. -/
def ColumnLog {α : Type} [LinearOrderedField α] (GWorld : UWorld α)
    (CurLocation Direction : FVector α) (i : Nat) : List α :=
  if (SweepOfColumn GWorld CurLocation Direction i).1 then
    (SweepOfColumn GWorld CurLocation Direction i).2.map (fun Hit => Hit.ImpactPoint.Z)
  else []

/-- Variables of `GetNearHigh` that change in its loop. -/
structure NearHighLoop (α Mesh : Type) where
  Res : List (FVector α)
  OutHits : List (FHitResult α)
  self : AAIMotionCharacter α Mesh

/-- Body of the loop of `GetNearHigh` (lines 205-228) for index `i`. -/
def NearHighStep {α Mesh : Type} [LinearOrderedField α] (GWorld : UWorld α)
    (CurLocation Direction : FVector α) (st : NearHighLoop α Mesh) (i : Nat) :
    NearHighLoop α Mesh :=
  let Start := StartLocation CurLocation Direction i
  let Out := GWorld st.OutHits Start (EndLocation Start) ProbeBox
  let bHitSuccess := Out.1
  let OutHits := Out.2
  let HitPoint := SelectHitPoint Start bHitSuccess OutHits
  let logged : AAIMotionCharacter α Mesh :=
    if bHitSuccess then
      { st.self with LogMemory := st.self.LogMemory ++ OutHits.map (fun Hit => Hit.ImpactPoint.Z) }
    else st.self
  let DrowLocation : FVector α := { HitPoint with Z := HitPoint.Z + 100 }
  { Res := st.Res ++ [HitPoint]
    OutHits := OutHits
    self := DrowTip logged DrowLocation HitPoint }

/-- Direction along which `GetNearHigh` lays out its columns (lines 194-197): the
unit Y axis of the rotation `FRotator(0, Yaw - 90, 0)`. -/
def NearHighDirection {α : Type} [LinearOrderedField α] (M : FMath α)
    (CurRotation : FRotator α) : FVector α :=
  let YawRotation : FRotator α := ⟨0, CurRotation.Yaw - 90, 0⟩
  (FRotationMatrix.Make M YawRotation).GetUnitAxis M EAxis.Y

/-- Source `AAIMotionCharacter::GetNearHigh`.  The controller is dereferenced
without a check: with `Controller = nullptr` the call fails (`none`).  Otherwise
the result is the array `Res` and the character after the six columns. -/
def GetNearHigh {α Mesh : Type} [LinearOrderedField α] (M : FMath α) (GWorld : UWorld α)
    (self : AAIMotionCharacter α Mesh) :
    Option (List (FVector α) × AAIMotionCharacter α Mesh) :=
  match self.Controller with
  | none => none
  | some Ctrl =>
    let CurLocation := self.ActorLocation
    let CurRotation := Ctrl.ControlRotation
    let Direction := NearHighDirection M CurRotation
    let final := (List.range 6).foldl (NearHighStep GWorld CurLocation Direction)
      { Res := [], OutHits := [], self := self }
    some (final.Res, final.self)

/-! ## Movement input -/

/-- Direction computed by `MoveForward` (lines 140-144): unit X axis of
`FRotator(0, Rotation.Yaw, 0)`. -/
def ForwardDirection {α : Type} [LinearOrderedField α] (M : FMath α)
    (Rotation : FRotator α) : FVector α :=
  let YawRotation : FRotator α := ⟨0, Rotation.Yaw, 0⟩
  (FRotationMatrix.Make M YawRotation).GetUnitAxis M EAxis.X

/-- Direction computed by `MoveRight` (lines 155-159): unit Y axis of
`FRotator(0, Rotation.Yaw, 0)`. -/
def RightDirection {α : Type} [LinearOrderedField α] (M : FMath α)
    (Rotation : FRotator α) : FVector α :=
  let YawRotation : FRotator α := ⟨0, Rotation.Yaw, 0⟩
  (FRotationMatrix.Make M YawRotation).GetUnitAxis M EAxis.Y

/-- Source `AAIMotionCharacter::MoveForward`.  The result is the character after
the call, `none` when the call fails inside `GetNearHigh`. -/
def MoveForward {α Mesh : Type} [LinearOrderedField α] (M : FMath α) (GWorld : UWorld α)
    (self : AAIMotionCharacter α Mesh) (Value : α) : Option (AAIMotionCharacter α Mesh) :=
  match self.Controller with
  | none => some self
  | some Ctrl =>
    if Value ≠ 0 then
      let Rotation := Ctrl.ControlRotation
      let Direction := ForwardDirection M Rotation
      let moved := AddMovementInput self Direction Value
      (GetNearHigh M GWorld moved).map Prod.snd
    else some self

/-- Source `AAIMotionCharacter::MoveRight`. -/
def MoveRight {α Mesh : Type} [LinearOrderedField α] (M : FMath α)
    (self : AAIMotionCharacter α Mesh) (Value : α) : AAIMotionCharacter α Mesh :=
  match self.Controller with
  | none => self
  | some Ctrl =>
    if Value ≠ 0 then
      let Rotation := Ctrl.ControlRotation
      let Direction := RightDirection M Rotation
      AddMovementInput self Direction Value
    else self

/-! ## Bone transforms -/

/-- Engine map `TMap<K, V>` as the list of its pairs in insertion order. -/
abbrev TMap (K V : Type) : Type := List (K × V)

/-- Engine `TMap::Add`: the value of an existing key is replaced, a new key is
appended. -/
def TMap.Add {K V : Type} [DecidableEq K] : TMap K V → K → V → TMap K V
  | [], k, v => [(k, v)]
  | (k', v') :: rest, k, v =>
    if k' = k then (k, v) :: rest else (k', v') :: TMap.Add rest k v

/-- Engine `TMap::Find`: the value stored for a key. -/
def TMap.Find {K V : Type} [DecidableEq K] : TMap K V → K → Option V
  | [], _ => none
  | (k', v') :: rest, k => if k' = k then some v' else TMap.Find rest k

/-- Keys of a map. -/
def TMap.Keys {K V : Type} (m : TMap K V) : List K := m.map Prod.fst

/-- Engine interface of `UPoseableMeshComponent` used by the character, over a
mesh state `Mesh`: `GetBoneNames`, and `GetBoneTransformByName` and
`SetBoneTransformByName` in `EBoneSpaces::WorldSpace`. -/
structure UPoseableMeshComponent (Mesh FName FTransform : Type) where
  GetBoneNames : Mesh → List FName
  GetBoneTransformByName : Mesh → FName → FTransform
  SetBoneTransformByName : Mesh → FName → FTransform → Mesh

/-- Engine contract of the posable mesh used for the round trip: writing to a
bone the world-space transform it already has leaves the mesh as it is. -/
def UPoseableMeshComponent.SetOfGet {Mesh FName FTransform : Type}
    (Api : UPoseableMeshComponent Mesh FName FTransform) : Prop :=
  ∀ (mesh : Mesh) (BoneName : FName),
    Api.SetBoneTransformByName mesh BoneName (Api.GetBoneTransformByName mesh BoneName) = mesh

/-- Source `AAIMotionCharacter::GetBoneAllTransfrom`. -/
def GetBoneAllTransfrom {α Mesh FName FTransform : Type} [DecidableEq FName]
    (Api : UPoseableMeshComponent Mesh FName FTransform) (self : AAIMotionCharacter α Mesh) :
    TMap FName FTransform :=
  match self.PoseableMesh with
  | none => []
  | some mesh =>
    let BoneNameArray := Api.GetBoneNames mesh
    BoneNameArray.foldl
      (fun Res BoneName => TMap.Add Res BoneName (Api.GetBoneTransformByName mesh BoneName)) []

/-- Source `AAIMotionCharacter::SetBoneAllTransfrom`. -/
def SetBoneAllTransfrom {α Mesh FName FTransform : Type}
    (Api : UPoseableMeshComponent Mesh FName FTransform) (self : AAIMotionCharacter α Mesh)
    (TransformMap : TMap FName FTransform) : AAIMotionCharacter α Mesh :=
  match self.PoseableMesh with
  | none => self
  | some mesh =>
    { self with PoseableMesh := some (TransformMap.foldl
        (fun m it => Api.SetBoneTransformByName m it.1 it.2) mesh) }

/-! ## Executable engine instances over `ℚ` -/

/-- Engine constant `PI`. -/
def PI : ℚ := 3.1415926535897932

/-- Engine constant `INV_PI`. -/
def INV_PI : ℚ := 0.31830988618

/-- Engine constant `HALF_PI`. -/
def HALF_PI : ℚ := 1.57079632679

/-- Conversion `(int)x` of C++: the fraction is dropped, towards zero. -/
def TruncToInt (x : ℚ) : ℤ := if 0 ≤ x then Int.floor x else Int.ceil x

/-- Engine `FMath::SinCos(&ScalarSin, &ScalarCos, Value)`, `Value` in radians, in
rational arithmetic: the reduction of the angle to `[-pi/2, pi/2]` and the two
minimax polynomials of the engine.  The result is the pair
`(ScalarSin, ScalarCos)`. -/
def SinCosRadians (Value : ℚ) : ℚ × ℚ :=
  let quotient : ℚ := (INV_PI * 0.5) * Value
  let quotient : ℚ :=
    if Value ≥ 0 then (TruncToInt (quotient + 0.5) : ℚ) else (TruncToInt (quotient - 0.5) : ℚ)
  let y : ℚ := Value - (2 * PI) * quotient
  let sign : ℚ := if y > HALF_PI then -1 else if y < -HALF_PI then -1 else 1
  let y : ℚ := if y > HALF_PI then PI - y else if y < -HALF_PI then -PI - y else y
  let y2 : ℚ := y * y
  let ScalarSin : ℚ :=
    (((((-2.3889859e-08 * y2 + 2.7525562e-06) * y2 - 0.00019840874) * y2 + 0.0083333310) * y2
      - 0.16666667) * y2 + 1) * y
  let p : ℚ :=
    ((((-2.6051615e-07 * y2 + 2.4760495e-05) * y2 - 0.0013888378) * y2 + 0.041666638) * y2
      - 0.5) * y2 + 1
  (ScalarSin, sign * p)

/-- Sine and cosine of an angle in degrees as `FRotationMatrix` asks for them:
`FMath::SinCos` of `FMath::DegreesToRadians(d) = d * (PI / 180)`. -/
def RationalSinCos (d : ℚ) : ℚ × ℚ := SinCosRadians (d * (PI / 180))

/-- Reciprocal square root of the rational engine: the two Newton-Raphson passes
of the engine's `InvSqrt`, started from 1 where the engine starts from the
hardware estimate. -/
def RationalInvSqrt (F : ℚ) : ℚ :=
  let X0 : ℚ := 1
  let FOver2 : ℚ := F * 0.5
  let X1 : ℚ := X0 + X0 * (0.5 - FOver2 * (X0 * X0))
  let X2 : ℚ := X1 + X1 * (0.5 - FOver2 * (X1 * X1))
  X2

/-- Engine math over `ℚ`: the engine's `SinCos` and `InvSqrt` in rational
arithmetic, without the rounding of `float`. -/
def RationalMath : FMath ℚ := ⟨RationalSinCos, RationalInvSqrt⟩

/-- World with a flat floor at height `h`: a sweep whose segment crosses the
floor reports one hit, straight below its start. -/
def FlatFloor (h : ℚ) : UWorld ℚ := fun _ Start End _ =>
  if End.Z ≤ h ∧ h < Start.Z then (true, [⟨⟨Start.X, Start.Y, h⟩⟩]) else (false, [])

/-- World whose geometry overlaps the box at the start of every sweep: one hit is
reported, 10 units above the start. -/
def OverlapWorld : UWorld ℚ := fun _ Start _ _ =>
  (true, [⟨⟨Start.X, Start.Y, Start.Z + 10⟩⟩])

/-- World with a ledge: a column whose start has `Y < 250` hits ground at height 0
straight below; further out the sweep misses and leaves the hit array it was
handed untouched. -/
def LedgeWorld : UWorld ℚ := fun Prev Start _ _ =>
  if Start.Y < 250 then (true, [⟨⟨Start.X, Start.Y, 0⟩⟩]) else (false, Prev)

/-- Sample character over `ℚ`: at the origin at height 100, controller with the
given rotation, no mesh, no calls made. -/
def SampleCharacter (Rotation : FRotator ℚ) : AAIMotionCharacter ℚ Unit :=
  { Controller := some ⟨Rotation⟩
    ActorLocation := ⟨0, 0, 100⟩
    PoseableMesh := none
    MovementInput := []
    DebugSpheres := []
    LogMemory := [] }

/-- State of a sample posable mesh: its bones in skeleton order, each with its
world-space transform (here a translation). -/
abbrev SampleMesh : Type := List (String × FVector ℚ)

/-- World-space transform of the bone of the given name in a sample mesh (the
first bone of that name); the origin for a name that is no bone. -/
def SampleMeshGet : SampleMesh → String → FVector ℚ
  | [], _ => ⟨0, 0, 0⟩
  | (Name, Transform) :: rest, BoneName =>
    if Name = BoneName then Transform else SampleMeshGet rest BoneName

/-- Overwrite the world-space transform of the bone of the given name in a
sample mesh (the first bone of that name); a name that is no bone is ignored. -/
def SampleMeshSet : SampleMesh → String → FVector ℚ → SampleMesh
  | [], _, _ => []
  | (Name, Transform) :: rest, BoneName, New =>
    if Name = BoneName then (Name, New) :: rest
    else (Name, Transform) :: SampleMeshSet rest BoneName New

/-- Posable mesh interface of the sample mesh. -/
def SampleMeshApi : UPoseableMeshComponent SampleMesh String (FVector ℚ) :=
  { GetBoneNames := fun mesh => mesh.map Prod.fst
    GetBoneTransformByName := SampleMeshGet
    SetBoneTransformByName := SampleMeshSet }

/-- Sample character with a posable mesh of three bones and no controller. -/
def SampleBoneCharacter : AAIMotionCharacter ℚ SampleMesh :=
  { Controller := none
    ActorLocation := ⟨0, 0, 100⟩
    PoseableMesh := some [("root", ⟨0, 0, 0⟩), ("spine", ⟨0, 0, 50⟩), ("head", ⟨0, 0, 90⟩)]
    MovementInput := []
    DebugSpheres := []
    LogMemory := [] }

/-! ## Engine math: axes of a yaw-only rotation -/

theorem GetSafeNormal_Z_zero {α : Type} [LinearOrderedField α] (M : FMath α) (a : FVector α)
    (hz : a.Z = 0) : (a.GetSafeNormal M).Z = 0 := by
  unfold FVector.GetSafeNormal
  simp only []
  split_ifs <;> simp [hz]

theorem yaw_Row1_Z {α : Type} [LinearOrderedField α] (M : FMath α) (y : α)
    (hs : (M.SinCos 0).1 = 0) :
    ((FRotationMatrix.Make M ⟨0, y, 0⟩).GetScaledAxis EAxis.Y).Z = 0 := by
  simp [FRotationMatrix.Make, FRotationMatrix.GetScaledAxis, hs]

theorem NearHighDirection_Z {α : Type} [LinearOrderedField α] (M : FMath α)
    (hs : (M.SinCos 0).1 = 0) (R : FRotator α) : (NearHighDirection M R).Z = 0 := by
  unfold NearHighDirection FRotationMatrix.GetUnitAxis
  exact GetSafeNormal_Z_zero M _ (yaw_Row1_Z M _ hs)

/-! ## The rational engine at the angle zero -/

theorem RationalSinCos_zero : RationalSinCos 0 = (0, 1) := by
  norm_num [RationalSinCos, SinCosRadians, TruncToInt, HALF_PI, PI, INV_PI]

theorem RationalMath_sin_zero : (RationalMath.SinCos 0).1 = 0 := by
  simp [RationalMath, RationalSinCos_zero]

/-! ## The loop of `GetNearHigh` -/

theorem NearHighStep_range {α Mesh : Type} [LinearOrderedField α] (GWorld : UWorld α)
    (C D : FVector α) (self : AAIMotionCharacter α Mesh) (n : Nat) :
    (List.range n).foldl (NearHighStep GWorld C D) { Res := [], OutHits := [], self := self }
      = { Res := (List.range n).map (ColumnPoint GWorld C D)
          OutHits := HitsBefore GWorld C D n
          self := { self with
            DebugSpheres := self.DebugSpheres ++ (List.range n).map (ColumnPoint GWorld C D)
            LogMemory := self.LogMemory
              ++ ((List.range n).map (ColumnLog GWorld C D)).flatten } } := by
  induction n with
  | zero => simp [HitsBefore]
  | succ n ih =>
    rw [List.range_succ, List.foldl_append, ih]
    simp only [List.foldl_cons, List.foldl_nil, NearHighStep, DrowTip, List.map_append,
      List.map_cons, List.map_nil, List.flatten_append, List.flatten_cons, List.flatten_nil,
      List.append_nil, List.append_assoc]
    have hs : GWorld (HitsBefore GWorld C D n) (StartLocation C D n)
        (EndLocation (StartLocation C D n)) ProbeBox = SweepOfColumn GWorld C D n := rfl
    rw [hs]
    have hp : SelectHitPoint (StartLocation C D n) (SweepOfColumn GWorld C D n).1
        (SweepOfColumn GWorld C D n).2 = ColumnPoint GWorld C D n := rfl
    rw [hp]
    have hh : HitsBefore GWorld C D (n + 1) = (SweepOfColumn GWorld C D n).2 := rfl
    rw [hh]
    unfold ColumnLog
    cases hb : (SweepOfColumn GWorld C D n).1 <;> simp

theorem GetNearHigh_eq {α Mesh : Type} [LinearOrderedField α] (M : FMath α) (GWorld : UWorld α)
    (self : AAIMotionCharacter α Mesh) (Ctrl : AController α) (h : self.Controller = some Ctrl) :
    GetNearHigh M GWorld self
      = some ((List.range 6).map
            (ColumnPoint GWorld self.ActorLocation (NearHighDirection M Ctrl.ControlRotation)),
          { self with
            DebugSpheres := self.DebugSpheres ++ (List.range 6).map
              (ColumnPoint GWorld self.ActorLocation (NearHighDirection M Ctrl.ControlRotation))
            LogMemory := self.LogMemory ++ ((List.range 6).map
              (ColumnLog GWorld self.ActorLocation
                (NearHighDirection M Ctrl.ControlRotation))).flatten }) := by
  unfold GetNearHigh
  simp only [h]
  rw [NearHighStep_range]
  simp [h]

theorem StartLocation_eq {α : Type} [LinearOrderedField α] (C D : FVector α) (i : Nat) :
    StartLocation C D i = C.add (D.scale (100 * (i : α))) := by
  simp only [StartLocation, FVector.add, FVector.scale, FVector.mk.injEq]
  refine ⟨?_, ?_, ?_⟩ <;> ring

/-! ## Selection of the hit point of one column -/

theorem foldl_LowerHit_le_start {α : Type} [LinearOrderedField α] (Hits : List (FHitResult α)) :
    ∀ p : FVector α, (Hits.foldl LowerHit p).Z ≤ p.Z := by
  induction Hits with
  | nil => intro p; simp
  | cons Hit rest ih =>
    intro p
    simp only [List.foldl_cons]
    refine le_trans (ih _) ?_
    unfold LowerHit
    simp only []
    split_ifs with hlt
    · exact le_of_lt hlt
    · exact le_refl _

theorem foldl_LowerHit_le_hits {α : Type} [LinearOrderedField α] (Hits : List (FHitResult α)) :
    ∀ p : FVector α, ∀ Hit ∈ Hits, (Hits.foldl LowerHit p).Z ≤ Hit.ImpactPoint.Z := by
  induction Hits with
  | nil => intro p Hit hmem; simp at hmem
  | cons First rest ih =>
    intro p Hit hmem
    simp only [List.foldl_cons]
    rcases List.mem_cons.mp hmem with heq | hin
    · subst heq
      refine le_trans (foldl_LowerHit_le_start rest _) ?_
      unfold LowerHit
      simp only []
      split_ifs with hlt
      · exact le_refl _
      · exact not_lt.mp hlt
    · exact ih _ Hit hin

theorem foldl_LowerHit_keep {α : Type} [LinearOrderedField α] (Hits : List (FHitResult α)) :
    ∀ p : FVector α, (∀ Hit ∈ Hits, p.Z ≤ Hit.ImpactPoint.Z) → Hits.foldl LowerHit p = p := by
  induction Hits with
  | nil => intro p _; simp
  | cons First rest ih =>
    intro p hall
    simp only [List.foldl_cons]
    have hfirst : LowerHit p First = p := by
      unfold LowerHit
      simp only []
      rw [if_neg (not_lt.mpr (hall First (List.mem_cons_self _ _)))]
    rw [hfirst]
    exact ih p (fun Hit hin => hall Hit (List.mem_cons_of_mem _ hin))

theorem foldl_LowerHit_mem {α : Type} [LinearOrderedField α] (Hits : List (FHitResult α)) :
    ∀ p : FVector α, (∃ Hit ∈ Hits, Hit.ImpactPoint.Z < p.Z) →
      ∃ Hit ∈ Hits, Hits.foldl LowerHit p = Hit.ImpactPoint := by
  induction Hits with
  | nil => intro p hex; obtain ⟨Hit, hmem, _⟩ := hex; simp at hmem
  | cons First rest ih =>
    intro p hex
    simp only [List.foldl_cons]
    by_cases hrest : ∃ Hit ∈ rest, Hit.ImpactPoint.Z < (LowerHit p First).Z
    · obtain ⟨Hit, hin, heq⟩ := ih _ hrest
      exact ⟨Hit, List.mem_cons_of_mem _ hin, heq⟩
    · have hkeep : rest.foldl LowerHit (LowerHit p First) = LowerHit p First :=
        foldl_LowerHit_keep rest _ (fun Hit hin => not_lt.mp (fun hlt => hrest ⟨Hit, hin, hlt⟩))
      rw [hkeep]
      have hfirst : First.ImpactPoint.Z < p.Z := by
        obtain ⟨Hit, hmem, hlt⟩ := hex
        rcases List.mem_cons.mp hmem with heq | hin
        · subst heq; exact hlt
        · by_contra hnot
          apply hrest
          refine ⟨Hit, hin, ?_⟩
          have : LowerHit p First = p := by
            unfold LowerHit
            simp only []
            rw [if_neg hnot]
          rw [this]
          exact hlt
      refine ⟨First, List.mem_cons_self _ _, ?_⟩
      unfold LowerHit
      simp only []
      rw [if_pos hfirst]

theorem ColumnPoint_getElem {α : Type} [LinearOrderedField α] (GWorld : UWorld α)
    (C D : FVector α) (i : Nat) (hi : i < 6) :
    ((List.range 6).map (ColumnPoint GWorld C D))[i]? = some (ColumnPoint GWorld C D i) := by
  rw [List.getElem?_map, List.getElem?_range hi]
  rfl

/-! ## Claims on `GetNearHigh` -/

/-- C1: with a controller present `GetNearHigh` returns, whatever the six sweeps
report, a list of exactly six points, and for `i = 0..5` its entry `i` is the
hit point selected for the column that starts at
`CurLocation + Direction * (100 * i)`, from the outcome of the sweep made from
that start to the point 200 below it. -/
theorem GetNearHigh_six_points {α Mesh : Type} [LinearOrderedField α] (M : FMath α)
    (GWorld : UWorld α) (self : AAIMotionCharacter α Mesh) (Ctrl : AController α)
    (h : self.Controller = some Ctrl) :
    ∃ Res self', GetNearHigh M GWorld self = some (Res, self') ∧ Res.length = 6 ∧
      ∀ i, i < 6 → ∃ Prev,
        SweepOfColumn GWorld self.ActorLocation (NearHighDirection M Ctrl.ControlRotation) i
          = GWorld Prev
              (self.ActorLocation.add
                ((NearHighDirection M Ctrl.ControlRotation).scale (100 * (i : α))))
              (EndLocation (self.ActorLocation.add
                ((NearHighDirection M Ctrl.ControlRotation).scale (100 * (i : α)))))
              ProbeBox ∧
        Res[i]? = some (SelectHitPoint
          (self.ActorLocation.add
            ((NearHighDirection M Ctrl.ControlRotation).scale (100 * (i : α))))
          (SweepOfColumn GWorld self.ActorLocation
            (NearHighDirection M Ctrl.ControlRotation) i).1
          (SweepOfColumn GWorld self.ActorLocation
            (NearHighDirection M Ctrl.ControlRotation) i).2) := by
  refine ⟨_, _, GetNearHigh_eq M GWorld self Ctrl h, by simp, ?_⟩
  intro i hi
  refine ⟨HitsBefore GWorld self.ActorLocation (NearHighDirection M Ctrl.ControlRotation) i,
    ?_, ?_⟩
  · rw [← StartLocation_eq]
    rfl
  · rw [ColumnPoint_getElem _ _ _ _ hi, ← StartLocation_eq]
    rfl

/-- C3: when the sweep of column `i` (`i = 0..5`) reports no hit, entry `i` of
the result is the column's start `CurLocation + Direction * (100 * i)`, in all
three coordinates, whatever hit array the query leaves behind. -/
theorem GetNearHigh_miss_gives_start {α Mesh : Type} [LinearOrderedField α] (M : FMath α)
    (GWorld : UWorld α) (self : AAIMotionCharacter α Mesh) (Ctrl : AController α)
    (h : self.Controller = some Ctrl) (i : Nat) (hi : i < 6)
    (hmiss : (SweepOfColumn GWorld self.ActorLocation
      (NearHighDirection M Ctrl.ControlRotation) i).1 = false) :
    ∃ Res self', GetNearHigh M GWorld self = some (Res, self') ∧
      Res[i]? = some (self.ActorLocation.add
        ((NearHighDirection M Ctrl.ControlRotation).scale (100 * (i : α)))) := by
  refine ⟨_, _, GetNearHigh_eq M GWorld self Ctrl h, ?_⟩
  rw [ColumnPoint_getElem _ _ _ _ hi, ← StartLocation_eq]
  unfold ColumnPoint SelectHitPoint
  rw [hmiss]
  simp

/-- C4: over a flat floor of height `floor` below the character (each of the six
sweeps reports at least one hit, every reported impact point has `Z = floor`,
and `floor` is below the character location's `Z`), every point returned by
`GetNearHigh` has `Z = floor`, at most the `Z` of its column's start and of the
character location.  The engine's sine of the zero angle is zero. -/
theorem GetNearHigh_flat_floor {α Mesh : Type} [LinearOrderedField α] (M : FMath α)
    (GWorld : UWorld α) (self : AAIMotionCharacter α Mesh) (Ctrl : AController α)
    (h : self.Controller = some Ctrl) (hsin : (M.SinCos 0).1 = 0) (floor : α)
    (hbelow : floor < self.ActorLocation.Z)
    (hfloor : ∀ i, i < 6 →
      (SweepOfColumn GWorld self.ActorLocation
        (NearHighDirection M Ctrl.ControlRotation) i).1 = true ∧
      (SweepOfColumn GWorld self.ActorLocation
        (NearHighDirection M Ctrl.ControlRotation) i).2 ≠ [] ∧
      ∀ Hit ∈ (SweepOfColumn GWorld self.ActorLocation
        (NearHighDirection M Ctrl.ControlRotation) i).2, Hit.ImpactPoint.Z = floor) :
    ∃ Res self', GetNearHigh M GWorld self = some (Res, self') ∧ Res.length = 6 ∧
      ∀ i, i < 6 → ∃ p, Res[i]? = some p ∧ p.Z = floor ∧
        p.Z ≤ (StartLocation self.ActorLocation
          (NearHighDirection M Ctrl.ControlRotation) i).Z ∧
        p.Z ≤ self.ActorLocation.Z := by
  refine ⟨_, _, GetNearHigh_eq M GWorld self Ctrl h, by simp, ?_⟩
  intro i hi
  obtain ⟨hhit, hne, hall⟩ := hfloor i hi
  have hstart : (StartLocation self.ActorLocation
      (NearHighDirection M Ctrl.ControlRotation) i).Z = self.ActorLocation.Z := by
    simp [StartLocation, FVector.add, FVector.scale, NearHighDirection_Z M hsin]
  have hex : ∃ Hit ∈ (SweepOfColumn GWorld self.ActorLocation
      (NearHighDirection M Ctrl.ControlRotation) i).2,
      Hit.ImpactPoint.Z < (StartLocation self.ActorLocation
        (NearHighDirection M Ctrl.ControlRotation) i).Z := by
    obtain ⟨Hit, hmem⟩ := List.exists_mem_of_ne_nil _ hne
    exact ⟨Hit, hmem, by rw [hall Hit hmem, hstart]; exact hbelow⟩
  obtain ⟨Hit, hmem, heq⟩ := foldl_LowerHit_mem _ _ hex
  have hz : (ColumnPoint GWorld self.ActorLocation
      (NearHighDirection M Ctrl.ControlRotation) i).Z = floor := by
    unfold ColumnPoint SelectHitPoint
    rw [hhit, if_pos rfl, heq]
    exact hall Hit hmem
  refine ⟨_, ColumnPoint_getElem _ _ _ _ hi, hz, ?_, ?_⟩
  · rw [hz, hstart]; exact le_of_lt hbelow
  · rw [hz]; exact le_of_lt hbelow

/-- C2, amended: for `i = 0..5`, when the sweep of column `i` reports a hit and
some reported impact point lies strictly below the `Z` of the column's start,
entry `i` of the result is one of the reported impact points and none of them
has a lower `Z`; in every other case (no hit reported, or no impact point
strictly below the start) entry `i` is the un-swept start of the column. -/
theorem GetNearHigh_lowest_hit_below_start {α Mesh : Type} [LinearOrderedField α]
    (M : FMath α) (GWorld : UWorld α) (self : AAIMotionCharacter α Mesh) (Ctrl : AController α)
    (h : self.Controller = some Ctrl) (i : Nat) (hi : i < 6) :
    ∃ Res self' p, GetNearHigh M GWorld self = some (Res, self') ∧ Res[i]? = some p ∧
      (((SweepOfColumn GWorld self.ActorLocation
            (NearHighDirection M Ctrl.ControlRotation) i).1 = true ∧
          ∃ Hit ∈ (SweepOfColumn GWorld self.ActorLocation
            (NearHighDirection M Ctrl.ControlRotation) i).2,
            Hit.ImpactPoint.Z < (StartLocation self.ActorLocation
              (NearHighDirection M Ctrl.ControlRotation) i).Z) →
        (∃ Hit ∈ (SweepOfColumn GWorld self.ActorLocation
            (NearHighDirection M Ctrl.ControlRotation) i).2, p = Hit.ImpactPoint) ∧
        ∀ Hit ∈ (SweepOfColumn GWorld self.ActorLocation
            (NearHighDirection M Ctrl.ControlRotation) i).2, p.Z ≤ Hit.ImpactPoint.Z) ∧
      (¬ ((SweepOfColumn GWorld self.ActorLocation
            (NearHighDirection M Ctrl.ControlRotation) i).1 = true ∧
          ∃ Hit ∈ (SweepOfColumn GWorld self.ActorLocation
            (NearHighDirection M Ctrl.ControlRotation) i).2,
            Hit.ImpactPoint.Z < (StartLocation self.ActorLocation
              (NearHighDirection M Ctrl.ControlRotation) i).Z) →
        p = StartLocation self.ActorLocation
          (NearHighDirection M Ctrl.ControlRotation) i) := by
  refine ⟨_, _, _, GetNearHigh_eq M GWorld self Ctrl h, ColumnPoint_getElem _ _ _ _ hi, ?_, ?_⟩
  · rintro ⟨hhit, hex⟩
    unfold ColumnPoint SelectHitPoint
    rw [hhit, if_pos rfl]
    exact ⟨foldl_LowerHit_mem _ _ hex, foldl_LowerHit_le_hits _ _⟩
  · intro hnot
    unfold ColumnPoint SelectHitPoint
    cases hb : (SweepOfColumn GWorld self.ActorLocation
        (NearHighDirection M Ctrl.ControlRotation) i).1
    · simp
    · rw [if_pos rfl]
      apply foldl_LowerHit_keep
      intro Hit hmem
      exact not_lt.mp (fun hlt => hnot ⟨hb, Hit, hmem, hlt⟩)

/-! ## Evaluation on the rational engine -/

theorem NearHighDirection_quarter (p r : ℚ) :
    NearHighDirection RationalMath ⟨p, 90, r⟩ = ⟨0, 1, 0⟩ := by
  have h0 : RationalMath.SinCos 0 = (0, 1) := RationalSinCos_zero
  simp [NearHighDirection, FRotationMatrix.GetUnitAxis, FRotationMatrix.GetScaledAxis,
    FRotationMatrix.Make, FVector.GetSafeNormal, h0]

/-- C2 fails as stated: over `OverlapWorld` the sweep of column 0 of the sample
character reports a hit whose only impact point is `(0, 0, 110)`, and entry 0
of the result is the un-swept start `(0, 0, 100)`, which is no impact point of
that column. -/
theorem GetNearHigh_hit_not_below_start :
    SweepOfColumn OverlapWorld (SampleCharacter ⟨0, 90, 0⟩).ActorLocation
        (NearHighDirection RationalMath ⟨0, 90, 0⟩) 0 = (true, [⟨⟨0, 0, 110⟩⟩]) ∧
      (GetNearHigh RationalMath OverlapWorld (SampleCharacter ⟨0, 90, 0⟩)).map Prod.fst
        = some [⟨0, 0, 100⟩, ⟨0, 100, 100⟩, ⟨0, 200, 100⟩, ⟨0, 300, 100⟩, ⟨0, 400, 100⟩,
            ⟨0, 500, 100⟩] ∧
      ¬ ∃ Hit ∈ (SweepOfColumn OverlapWorld (SampleCharacter ⟨0, 90, 0⟩).ActorLocation
          (NearHighDirection RationalMath ⟨0, 90, 0⟩) 0).2,
        (⟨0, 0, 100⟩ : FVector ℚ) = Hit.ImpactPoint := by
  have hsweep : SweepOfColumn OverlapWorld (SampleCharacter ⟨0, 90, 0⟩).ActorLocation
      (NearHighDirection RationalMath ⟨0, 90, 0⟩) 0 = (true, [⟨⟨0, 0, 110⟩⟩]) := by
    rw [NearHighDirection_quarter]
    norm_num [SweepOfColumn, HitsBefore, StartLocation, EndLocation, OverlapWorld,
      SampleCharacter, FVector.add, FVector.scale]
  refine ⟨hsweep, ?_, ?_⟩
  · rw [GetNearHigh_eq RationalMath OverlapWorld (SampleCharacter ⟨0, 90, 0⟩) ⟨⟨0, 90, 0⟩⟩ rfl]
    simp only [NearHighDirection_quarter]
    norm_num [List.range_succ, ColumnPoint, SelectHitPoint, LowerHit, SweepOfColumn,
      HitsBefore, StartLocation, EndLocation, OverlapWorld, SampleCharacter, FVector.add,
      FVector.scale]
  · rw [hsweep]
    norm_num

theorem SampleCharacter_columns (i : Nat) :
    StartLocation (SampleCharacter ⟨0, 90, 0⟩).ActorLocation
      (NearHighDirection RationalMath ⟨0, 90, 0⟩) i = ⟨0, 100 * (i : ℚ), 100⟩ := by
  rw [NearHighDirection_quarter]
  simp only [StartLocation, SampleCharacter, FVector.add, FVector.scale, FVector.mk.injEq]
  refine ⟨?_, ?_, ?_⟩ <;> ring

theorem GetNearHigh_six_points_witness :
    (SampleCharacter ⟨0, 90, 0⟩).Controller = some ⟨⟨0, 90, 0⟩⟩ ∧
      ∃ Res self', GetNearHigh RationalMath LedgeWorld (SampleCharacter ⟨0, 90, 0⟩)
        = some (Res, self') ∧ Res.length = 6 :=
  ⟨rfl, by
    obtain ⟨Res, self', hres, hlen, _⟩ := GetNearHigh_six_points RationalMath LedgeWorld
      (SampleCharacter ⟨0, 90, 0⟩) ⟨⟨0, 90, 0⟩⟩ rfl
    exact ⟨Res, self', hres, hlen⟩⟩

theorem LedgeWorld_column_three :
    SweepOfColumn LedgeWorld (SampleCharacter ⟨0, 90, 0⟩).ActorLocation
      (NearHighDirection RationalMath ⟨0, 90, 0⟩) 3 = (false, [⟨⟨0, 200, 0⟩⟩]) := by
  simp only [SweepOfColumn, HitsBefore, SampleCharacter_columns]
  norm_num [LedgeWorld]

theorem GetNearHigh_miss_gives_start_witness :
    (SampleCharacter ⟨0, 90, 0⟩).Controller = some ⟨⟨0, 90, 0⟩⟩ ∧
      SweepOfColumn LedgeWorld (SampleCharacter ⟨0, 90, 0⟩).ActorLocation
        (NearHighDirection RationalMath ⟨0, 90, 0⟩) 3 = (false, [⟨⟨0, 200, 0⟩⟩]) ∧
      ∃ Res self', GetNearHigh RationalMath LedgeWorld (SampleCharacter ⟨0, 90, 0⟩)
        = some (Res, self') ∧ Res[3]? = some ⟨0, 300, 100⟩ :=
  ⟨rfl, LedgeWorld_column_three, by
    obtain ⟨Res, self', hres, hget⟩ := GetNearHigh_miss_gives_start RationalMath LedgeWorld
      (SampleCharacter ⟨0, 90, 0⟩) ⟨⟨0, 90, 0⟩⟩ rfl 3 (by decide)
      (by rw [LedgeWorld_column_three])
    refine ⟨Res, self', hres, ?_⟩
    rw [hget, NearHighDirection_quarter]
    norm_num [SampleCharacter, FVector.add, FVector.scale]⟩

theorem FlatFloor_column (i : Nat) :
    SweepOfColumn (FlatFloor 0) (SampleCharacter ⟨0, 90, 0⟩).ActorLocation
      (NearHighDirection RationalMath ⟨0, 90, 0⟩) i = (true, [⟨⟨0, 100 * (i : ℚ), 0⟩⟩]) := by
  simp only [SweepOfColumn, SampleCharacter_columns]
  norm_num [FlatFloor, EndLocation]

theorem GetNearHigh_flat_floor_witness :
    (SampleCharacter ⟨0, 90, 0⟩).Controller = some ⟨⟨0, 90, 0⟩⟩ ∧
      (RationalMath.SinCos 0).1 = 0 ∧
      (0 : ℚ) < (SampleCharacter ⟨0, 90, 0⟩).ActorLocation.Z ∧
      ∃ Res self', GetNearHigh RationalMath (FlatFloor 0) (SampleCharacter ⟨0, 90, 0⟩)
        = some (Res, self') ∧ Res.length = 6 ∧
        ∀ i, i < 6 → ∃ p, Res[i]? = some p ∧ p.Z = 0 :=
  ⟨rfl, RationalMath_sin_zero, by norm_num [SampleCharacter], by
    obtain ⟨Res, self', hres, hlen, hall⟩ := GetNearHigh_flat_floor RationalMath (FlatFloor 0)
      (SampleCharacter ⟨0, 90, 0⟩) ⟨⟨0, 90, 0⟩⟩ rfl RationalMath_sin_zero 0
      (by norm_num [SampleCharacter])
      (fun i _ => by rw [FlatFloor_column]; simp)
    refine ⟨Res, self', hres, hlen, fun i hi => ?_⟩
    obtain ⟨p, hp, hz, _⟩ := hall i hi
    exact ⟨p, hp, hz⟩⟩

theorem GetNearHigh_lowest_hit_below_start_witness :
    (SampleCharacter ⟨0, 90, 0⟩).Controller = some ⟨⟨0, 90, 0⟩⟩ ∧
      ∃ Res self', GetNearHigh RationalMath (FlatFloor 0) (SampleCharacter ⟨0, 90, 0⟩)
        = some (Res, self') ∧ Res[2]? = some ⟨0, 200, 0⟩ :=
  ⟨rfl, by
    obtain ⟨Res, self', p, hres, hget, hlow, _⟩ := GetNearHigh_lowest_hit_below_start
      RationalMath (FlatFloor 0) (SampleCharacter ⟨0, 90, 0⟩) ⟨⟨0, 90, 0⟩⟩ rfl 2 (by decide)
    refine ⟨Res, self', hres, ?_⟩
    rw [FlatFloor_column, SampleCharacter_columns] at hlow
    obtain ⟨⟨Hit, hmem, heq⟩, _⟩ := hlow ⟨rfl, ⟨⟨0, 100 * ((2 : ℕ) : ℚ), 0⟩⟩, by simp, by norm_num⟩
    rw [hget, heq]
    simp only [List.mem_singleton] at hmem
    rw [hmem]
    norm_num⟩

/-! ## Claims on the movement input -/

theorem GetNearHigh_keeps_MovementInput {α Mesh : Type} [LinearOrderedField α] (M : FMath α)
    (GWorld : UWorld α) (self : AAIMotionCharacter α Mesh) (Ctrl : AController α)
    (h : self.Controller = some Ctrl) :
    ∃ Res self', GetNearHigh M GWorld self = some (Res, self') ∧
      self'.MovementInput = self.MovementInput ∧
      self'.DebugSpheres = self.DebugSpheres ++ Res ∧ Res.length = 6 :=
  ⟨_, _, GetNearHigh_eq M GWorld self Ctrl h, rfl, rfl, by simp⟩

theorem MoveForward_eq {α Mesh : Type} [LinearOrderedField α] (M : FMath α)
    (GWorld : UWorld α) (self : AAIMotionCharacter α Mesh) (Ctrl : AController α)
    (h : self.Controller = some Ctrl) (Value : α) (hv : Value ≠ 0) :
    MoveForward M GWorld self Value
      = (GetNearHigh M GWorld
          (AddMovementInput self (ForwardDirection M Ctrl.ControlRotation) Value)).map
          Prod.snd := by
  unfold MoveForward
  simp only [h]
  rw [if_pos hv]

/-- C7: for `MoveForward` and `MoveRight` alike, when the axis value is zero or
no controller is present the call leaves the character as it is: no movement
input is submitted, no debug sphere is drawn and nothing is logged (the probe
`GetNearHigh` is not run), and `MoveForward` does not fail. -/
theorem Move_without_input_is_noop {α Mesh : Type} [LinearOrderedField α] (M : FMath α)
    (GWorld : UWorld α) (self : AAIMotionCharacter α Mesh) (Value : α)
    (h : self.Controller = none ∨ Value = 0) :
    MoveForward M GWorld self Value = some self ∧ MoveRight M self Value = self := by
  unfold MoveForward MoveRight
  rcases h with h | h
  · simp [h]
  · cases hc : self.Controller <;> simp [h]

theorem Move_without_input_is_noop_witness :
    ((SampleCharacter ⟨0, 90, 0⟩).Controller = none ∨ (0 : ℚ) = 0) ∧
      MoveForward RationalMath (FlatFloor 0) (SampleCharacter ⟨0, 90, 0⟩) 0
        = some (SampleCharacter ⟨0, 90, 0⟩) ∧
      MoveRight RationalMath (SampleCharacter ⟨0, 90, 0⟩) 0 = SampleCharacter ⟨0, 90, 0⟩ :=
  ⟨Or.inr rfl, Move_without_input_is_noop RationalMath (FlatFloor 0)
    (SampleCharacter ⟨0, 90, 0⟩) 0 (Or.inr rfl)⟩

/-- C10: `GetNearHigh` fails when no controller is present; `MoveForward` never
fails, for every character and axis value; and `MoveForward` runs `GetNearHigh`
exactly when a controller is present and the value is nonzero: in that case its
result is the character after the probe (run after the movement input was
submitted, six debug spheres drawn), in every other case the character is
untouched; so six more spheres are drawn exactly in that case. -/
theorem MoveForward_guards_probe {α Mesh : Type} [LinearOrderedField α] (M : FMath α)
    (GWorld : UWorld α) (self : AAIMotionCharacter α Mesh) (Value : α) :
    (self.Controller = none → GetNearHigh M GWorld self = none) ∧
      ∃ self', MoveForward M GWorld self Value = some self' ∧
        (∀ Ctrl, self.Controller = some Ctrl → Value ≠ 0 →
          ∃ Res, GetNearHigh M GWorld
              (AddMovementInput self (ForwardDirection M Ctrl.ControlRotation) Value)
            = some (Res, self') ∧ Res.length = 6 ∧
            self'.DebugSpheres = self.DebugSpheres ++ Res) ∧
        ((self.Controller = none ∨ Value = 0) → self' = self) ∧
        (self'.DebugSpheres.length = self.DebugSpheres.length + 6 ↔
          (self.Controller ≠ none ∧ Value ≠ 0)) := by
  refine ⟨fun hnone => by unfold GetNearHigh; simp [hnone], ?_⟩
  by_cases hrun : self.Controller ≠ none ∧ Value ≠ 0
  · obtain ⟨hctrl, hv⟩ := hrun
    obtain ⟨Ctrl, hC⟩ := Option.ne_none_iff_exists'.mp hctrl
    obtain ⟨Res, self', hres, _, hdraw, hlen⟩ := GetNearHigh_keeps_MovementInput M GWorld
      (AddMovementInput self (ForwardDirection M Ctrl.ControlRotation) Value) Ctrl hC
    have hdraw' : self'.DebugSpheres = self.DebugSpheres ++ Res := hdraw
    refine ⟨self', ?_, ?_, ?_, ?_⟩
    · rw [MoveForward_eq M GWorld self Ctrl hC Value hv, hres]
      rfl
    · intro Ctrl' hC' _
      rw [hC] at hC'
      cases hC'
      exact ⟨Res, hres, hlen, hdraw'⟩
    · rintro (hnone | hzero)
      · exact absurd hnone hctrl
      · exact absurd hzero hv
    · rw [hdraw', List.length_append, hlen]
      exact ⟨fun _ => ⟨hctrl, hv⟩, fun _ => rfl⟩
  · have hor : self.Controller = none ∨ Value = 0 := by
      by_contra hcon
      push_neg at hcon
      exact hrun hcon
    have hnoop : MoveForward M GWorld self Value = some self := by
      unfold MoveForward
      rcases hor with h | h
      · simp [h]
      · cases hc : self.Controller <;> simp [h]
    refine ⟨self, hnoop, ?_, fun _ => rfl, ?_⟩
    · intro Ctrl hC hv
      exact absurd ⟨by rw [hC]; simp, hv⟩ hrun
    · constructor
      · intro hlen
        omega
      · intro hcon
        exact absurd hcon hrun

theorem MoveForward_guards_probe_witness :
    GetNearHigh RationalMath (FlatFloor 0)
        ({ SampleCharacter ⟨0, 90, 0⟩ with Controller := none }) = none ∧
      ∃ self', MoveForward RationalMath (FlatFloor 0)
          ({ SampleCharacter ⟨0, 90, 0⟩ with Controller := none }) 1 = some self' :=
  ⟨(MoveForward_guards_probe RationalMath (FlatFloor 0)
      ({ SampleCharacter ⟨0, 90, 0⟩ with Controller := none }) 1).1 rfl, by
    obtain ⟨_, self', hmove, _⟩ := MoveForward_guards_probe RationalMath (FlatFloor 0)
      ({ SampleCharacter ⟨0, 90, 0⟩ with Controller := none }) 1
    exact ⟨self', hmove⟩⟩

/-! ## Bone transform map -/

theorem TMap_mem_Keys_Add {K V : Type} [DecidableEq K] (m : TMap K V) (k : K) (v : V) (k' : K) :
    k' ∈ TMap.Keys (TMap.Add m k v) ↔ k' ∈ TMap.Keys m ∨ k' = k := by
  induction m with
  | nil => simp [TMap.Add, TMap.Keys]
  | cons e rest ih =>
    obtain ⟨ke, ve⟩ := e
    unfold TMap.Keys at ih ⊢
    by_cases hk : ke = k
    · subst hk
      simp [TMap.Add]
      tauto
    · simp only [TMap.Add, if_neg hk, List.map_cons, List.mem_cons, ih]
      tauto

theorem TMap_Nodup_Keys_Add {K V : Type} [DecidableEq K] (m : TMap K V) (k : K) (v : V)
    (hm : (TMap.Keys m).Nodup) : (TMap.Keys (TMap.Add m k v)).Nodup := by
  induction m with
  | nil => simp [TMap.Add, TMap.Keys]
  | cons e rest ih =>
    obtain ⟨ke, ve⟩ := e
    have hm' : ke ∉ TMap.Keys rest ∧ (TMap.Keys rest).Nodup := by
      simpa [TMap.Keys] using hm
    by_cases hk : ke = k
    · subst hk
      simpa [TMap.Add, TMap.Keys] using hm
    · have hnot : ke ∉ TMap.Keys (TMap.Add rest k v) := by
        rw [TMap_mem_Keys_Add]
        rintro (hin | heq)
        · exact hm'.1 hin
        · exact hk heq
      have hrest := ih hm'.2
      simp only [TMap.Add, if_neg hk]
      exact List.nodup_cons.mpr ⟨hnot, hrest⟩

theorem TMap_Find_Add {K V : Type} [DecidableEq K] (m : TMap K V) (k : K) (v : V) (k' : K) :
    TMap.Find (TMap.Add m k v) k' = if k' = k then some v else TMap.Find m k' := by
  induction m with
  | nil =>
    by_cases h : k' = k
    · simp [TMap.Add, TMap.Find, h]
    · have h' : ¬ k = k' := fun e => h e.symm
      simp [TMap.Add, TMap.Find, h, h']
  | cons e rest ih =>
    obtain ⟨ke, ve⟩ := e
    by_cases hk : ke = k
    · subst hk
      by_cases h : k' = ke
      · simp [TMap.Add, TMap.Find, h]
      · have h' : ¬ ke = k' := fun e => h e.symm
        simp [TMap.Add, TMap.Find, h, h']
    · simp only [TMap.Add, if_neg hk, TMap.Find, ih]
      by_cases h : ke = k'
      · have h2 : ¬ k' = k := fun e => hk (h.trans e)
        simp [h, h2]
      · simp [h]

theorem TMap_mem_Add {K V : Type} [DecidableEq K] (m : TMap K V) (k : K) (v : V) (e : K × V)
    (he : e ∈ TMap.Add m k v) : e ∈ m ∨ e = (k, v) := by
  induction m with
  | nil => simpa [TMap.Add] using he
  | cons e' rest ih =>
    obtain ⟨ke, ve⟩ := e'
    by_cases hk : ke = k
    · simp only [TMap.Add, if_pos hk, List.mem_cons] at he
      rcases he with he | he
      · exact Or.inr he
      · exact Or.inl (List.mem_cons_of_mem _ he)
    · simp only [TMap.Add, if_neg hk, List.mem_cons] at he
      rcases he with he | he
      · exact Or.inl (he ▸ List.mem_cons_self _ _)
      · rcases ih he with h | h
        · exact Or.inl (List.mem_cons_of_mem _ h)
        · exact Or.inr h

theorem foldl_Add_spec {K V : Type} [DecidableEq K] (f : K → V) (Names : List K) :
    ∀ m0 : TMap K V,
      (∀ k, k ∈ TMap.Keys (Names.foldl (fun Res Name => TMap.Add Res Name (f Name)) m0)
        ↔ k ∈ TMap.Keys m0 ∨ k ∈ Names) ∧
      ((TMap.Keys m0).Nodup →
        (TMap.Keys (Names.foldl (fun Res Name => TMap.Add Res Name (f Name)) m0)).Nodup) ∧
      (∀ k, k ∈ Names →
        TMap.Find (Names.foldl (fun Res Name => TMap.Add Res Name (f Name)) m0) k
          = some (f k)) ∧
      (∀ k, k ∉ Names →
        TMap.Find (Names.foldl (fun Res Name => TMap.Add Res Name (f Name)) m0) k
          = TMap.Find m0 k) ∧
      (∀ e, e ∈ Names.foldl (fun Res Name => TMap.Add Res Name (f Name)) m0 →
        e ∈ m0 ∨ e.2 = f e.1) := by
  induction Names with
  | nil =>
    intro m0
    exact ⟨fun k => by simp, fun h => h, fun k hk => by simp at hk, fun _ _ => rfl,
      fun e he => Or.inl he⟩
  | cons Name rest ih =>
    intro m0
    obtain ⟨hkeys, hnodup, hfind, hfind', hmem⟩ := ih (TMap.Add m0 Name (f Name))
    simp only [List.foldl_cons]
    refine ⟨?_, ?_, ?_, ?_, ?_⟩
    · intro k
      rw [hkeys, TMap_mem_Keys_Add, List.mem_cons]
      tauto
    · intro h0
      exact hnodup (TMap_Nodup_Keys_Add _ _ _ h0)
    · intro k hk
      by_cases hin : k ∈ rest
      · exact hfind k hin
      · rw [hfind' k hin, TMap_Find_Add]
        rcases List.mem_cons.mp hk with heq | hr
        · simp [heq]
        · exact absurd hr hin
    · intro k hk
      have hne : ¬ k = Name := fun e => hk (e ▸ List.mem_cons_self _ _)
      have hnr : k ∉ rest := fun e => hk (List.mem_cons_of_mem _ e)
      rw [hfind' k hnr, TMap_Find_Add, if_neg hne]
    · intro e he
      rcases hmem e he with h | h
      · rcases TMap_mem_Add _ _ _ _ h with h1 | h1
        · exact Or.inl h1
        · exact Or.inr (by rw [h1])
      · exact Or.inr h

theorem foldl_Set_of_Get {Mesh FName FTransform : Type}
    (Api : UPoseableMeshComponent Mesh FName FTransform) (hApi : Api.SetOfGet) (mesh : Mesh)
    (m : TMap FName FTransform) (hm : ∀ e, e ∈ m → e.2 = Api.GetBoneTransformByName mesh e.1) :
    m.foldl (fun ms it => Api.SetBoneTransformByName ms it.1 it.2) mesh = mesh := by
  induction m with
  | nil => rfl
  | cons e rest ih =>
    simp only [List.foldl_cons]
    rw [hm e (List.mem_cons_self _ _), hApi mesh e.1]
    exact ih (fun e' he' => hm e' (List.mem_cons_of_mem _ he'))

theorem SampleMeshApi_SetOfGet : SampleMeshApi.SetOfGet := by
  intro mesh BoneName
  show SampleMeshSet mesh BoneName (SampleMeshGet mesh BoneName) = mesh
  induction mesh with
  | nil => rfl
  | cons e rest ih =>
    obtain ⟨Name, Transform⟩ := e
    by_cases h : Name = BoneName
    · simp [SampleMeshSet, SampleMeshGet, h]
    · simp [SampleMeshSet, SampleMeshGet, h, ih]

/-- C9: `GetBoneAllTransfrom` is total; without a mesh it returns the empty map;
with a mesh attached the keys of the returned map are exactly the bone names of
the mesh at the time of the call, no key occurs twice, and every bone name is
mapped to the world-space transform the mesh reports for it. -/
theorem GetBoneAllTransfrom_snapshot {α Mesh FName FTransform : Type} [DecidableEq FName]
    (Api : UPoseableMeshComponent Mesh FName FTransform) (self : AAIMotionCharacter α Mesh) :
    (self.PoseableMesh = none → GetBoneAllTransfrom Api self = []) ∧
      ∀ mesh, self.PoseableMesh = some mesh →
        (∀ k, k ∈ TMap.Keys (GetBoneAllTransfrom Api self) ↔ k ∈ Api.GetBoneNames mesh) ∧
        (TMap.Keys (GetBoneAllTransfrom Api self)).Nodup ∧
        ∀ k, k ∈ Api.GetBoneNames mesh →
          TMap.Find (GetBoneAllTransfrom Api self) k
            = some (Api.GetBoneTransformByName mesh k) := by
  refine ⟨fun hnone => by unfold GetBoneAllTransfrom; simp [hnone], ?_⟩
  intro mesh hmesh
  obtain ⟨hkeys, hnodup, hfind, _, _⟩ :=
    foldl_Add_spec (Api.GetBoneTransformByName mesh) (Api.GetBoneNames mesh) []
  unfold GetBoneAllTransfrom
  simp only [hmesh]
  refine ⟨fun k => ?_, hnodup (by simp [TMap.Keys]), hfind⟩
  rw [hkeys]
  simp [TMap.Keys]

theorem GetBoneAllTransfrom_snapshot_witness :
    SampleBoneCharacter.PoseableMesh
        = some [("root", ⟨0, 0, 0⟩), ("spine", ⟨0, 0, 50⟩), ("head", ⟨0, 0, 90⟩)] ∧
      TMap.Find (GetBoneAllTransfrom SampleMeshApi SampleBoneCharacter) "spine"
        = some ⟨0, 0, 50⟩ :=
  ⟨rfl, by
    rw [(GetBoneAllTransfrom_snapshot SampleMeshApi SampleBoneCharacter).2 _ rfl |>.2.2 "spine"
      (by simp [SampleMeshApi])]
    simp [SampleMeshApi, SampleMeshGet]⟩

/-- C8: round trip of the bone map.  On a mesh for which writing to a bone the
world-space transform it has changes nothing, `SetBoneAllTransfrom` applied to
the unmodified result `m` of `GetBoneAllTransfrom` leaves the character as it
is, and `GetBoneAllTransfrom` then returns a map equal to `m`: the same keys,
each with the same transform. -/
theorem bone_map_round_trip {α Mesh FName FTransform : Type} [DecidableEq FName]
    (Api : UPoseableMeshComponent Mesh FName FTransform) (hApi : Api.SetOfGet)
    (self : AAIMotionCharacter α Mesh) :
    SetBoneAllTransfrom Api self (GetBoneAllTransfrom Api self) = self ∧
      GetBoneAllTransfrom Api (SetBoneAllTransfrom Api self (GetBoneAllTransfrom Api self))
        = GetBoneAllTransfrom Api self := by
  have hset : SetBoneAllTransfrom Api self (GetBoneAllTransfrom Api self) = self := by
    cases hmesh : self.PoseableMesh with
    | none => unfold SetBoneAllTransfrom; simp [hmesh]
    | some mesh =>
      obtain ⟨_, _, _, _, hmem⟩ :=
        foldl_Add_spec (Api.GetBoneTransformByName mesh) (Api.GetBoneNames mesh) []
      have hm : ∀ e, e ∈ GetBoneAllTransfrom Api self →
          e.2 = Api.GetBoneTransformByName mesh e.1 := by
        intro e he
        unfold GetBoneAllTransfrom at he
        simp only [hmesh] at he
        rcases hmem e he with h | h
        · simp at h
        · exact h
      unfold SetBoneAllTransfrom
      simp only [hmesh]
      rw [foldl_Set_of_Get Api hApi mesh _ hm, ← hmesh]
  exact ⟨hset, by rw [hset]⟩

theorem bone_map_round_trip_witness :
    SampleMeshApi.SetOfGet ∧
      GetBoneAllTransfrom SampleMeshApi
          (SetBoneAllTransfrom SampleMeshApi SampleBoneCharacter
            (GetBoneAllTransfrom SampleMeshApi SampleBoneCharacter))
        = GetBoneAllTransfrom SampleMeshApi SampleBoneCharacter :=
  ⟨SampleMeshApi_SetOfGet,
    (bone_map_round_trip SampleMeshApi SampleMeshApi_SetOfGet SampleBoneCharacter).2⟩

end AIMotion
